import Mathlib

/-!
Shallow embedding of `passport-github-token` (src/src/index.js): the
`GitHubTokenStrategy` class with its `authenticate` orchestrator and
`userProfile` fetcher/normalizer.  Network I/O is modelled by passing the
transport responses (primary profile call and secondary emails call) as
explicit inputs; `JSON.parse` is modelled on pre-classified bodies (a body is
either raw text that does not parse, or the JSON value it parses to).
JavaScript runtime values are modelled by the inductive `Js`; JS loose
equality (`==`) is modelled on primitive values (object-to-primitive and
numeric-string coercions are outside the provider's string-valued contract
and are not modelled).
-/

namespace GHT

/-- JavaScript values as they arise in this program (JSON values plus
`undefined` for absent properties). -/
inductive Js where
  | undefined
  | null
  | bool (b : Bool)
  | num (n : Int)
  | str (s : String)
  | arr (elems : List Js)
  | obj (fields : List (String × Js))

/-- JS truthiness: `undefined`, `null`, `false`, `0`, `""` are falsy. -/
def Js.truthy : Js → Bool
  | .undefined => false
  | .null => false
  | .bool b => b
  | .num n => n != 0
  | .str s => s != ""
  | .arr _ => true
  | .obj _ => true

/-- Is the value `null` or `undefined` (property access on these throws). -/
def Js.isNullish : Js → Bool
  | .null => true
  | .undefined => true
  | _ => false

/-- First-match association lookup in an object's field list (parsed JSON
objects are assumed to have distinct keys). -/
def lookupField : List (String × Js) → String → Js
  | [], _ => .undefined
  | (k, v) :: t, key => if k == key then v else lookupField t key

/-- Total property access: `v[k]` on an object looks up the field, on other
non-nullish values yields `undefined` (built-in properties such as
`length` are modelled separately where the source uses them). -/
def jsGet : Js → String → Js
  | .obj fs, k => lookupField fs k
  | _, _ => .undefined

/-- Property access that models the TypeError thrown by `null.k` /
`undefined.k`; otherwise as `jsGet`. -/
def jsGetE : Js → String → Except Unit Js
  | .null, _ => .error ()
  | .undefined, _ => .error ()
  | v, k => .ok (jsGet v k)

/-- The `.length` property as read by the secondary-emails handler:
arrays and strings expose their length, objects may carry a `length` field,
other non-nullish values yield `undefined`; `null`/`undefined` throw. -/
def jsLengthE : Js → Except Unit Js
  | .null => .error ()
  | .undefined => .error ()
  | .arr xs => .ok (.num (xs.length : Int))
  | .str s => .ok (.num (s.length : Int))
  | .obj fs => .ok (lookupField fs "length")
  | _ => .ok .undefined

/-- JS loose equality `==` restricted to the primitive values this program
compares (email addresses, i.e. strings, and absent values); cross-type
numeric/boolean coercion and object-to-primitive coercion are not
modelled. -/
def jsEq : Js → Js → Bool
  | .str a, .str b => a == b
  | .num a, .num b => a == b
  | .bool a, .bool b => a == b
  | .null, .null => true
  | .null, .undefined => true
  | .undefined, .null => true
  | .undefined, .undefined => true
  | _, _ => false

/-- A transport response body: raw text that is not valid JSON, or text
whose `JSON.parse` yields the given value. -/
inductive Body where
  | raw (s : String)
  | json (j : Js)

/-- A transport error, as surfaced by `this._oauth2.get`: carries a `data`
payload (raw error body, possibly JSON) and a `statusCode`. -/
structure TransportError where
  data : Body
  statusCode : Int

/-- Outcome of one `this._oauth2.get` call. -/
inductive TransportResult where
  | err (e : TransportError)
  | ok (body : Body)

/-- Strategy configuration, as set up by the constructor from the options
(`this._accessTokenField`, `this._refreshTokenField`,
`this._passReqToCallback`, `this._scope`). -/
structure Config where
  accessTokenField : String
  refreshTokenField : String
  passReqToCallback : Bool
  scope : Option String

/-- JS `a || b` on possibly-absent option strings used by the constructor
(`options.accessTokenField || 'access_token'`): the empty string is falsy. -/
def jsOrDefault (a : Option String) (d : String) : String :=
  match a with
  | some s => if s == "" then d else s
  | none => d

/-- Constructor options relevant to the modelled behaviour. -/
structure Options where
  accessTokenField : Option String
  refreshTokenField : Option String
  passReqToCallback : Bool
  scope : Option String

/-- The constructor's field initialisation. -/
def mkConfig (o : Options) : Config :=
  { accessTokenField := jsOrDefault o.accessTokenField "access_token"
    refreshTokenField := jsOrDefault o.refreshTokenField "refresh_token"
    passReqToCallback := o.passReqToCallback
    scope := o.scope }

/-- List containment of a pattern at the head. -/
def startsWithL : List Char → List Char → Bool
  | [], _ => true
  | _ :: _, [] => false
  | a :: as, b :: bs => a == b && startsWithL as bs

/-- Sublist (contiguous) containment, modelling `String.indexOf !== -1`. -/
def hasSubList (needle : List Char) : List Char → Bool
  | [] => startsWithL needle []
  | h@(_ :: t) => startsWithL needle h || hasSubList needle t

/-- Model of `hay.indexOf(needle) !== -1` on strings. -/
def hasSubStr (needle hay : String) : Bool :=
  hasSubList needle.toList hay.toList

/-- The scope test guarding the secondary emails call:
`this._scope && this._scope.indexOf('user:email') !== -1` (string scope). -/
def scopeWantsEmails (cfg : Config) : Bool :=
  match cfg.scope with
  | none => false
  | some s => hasSubStr "user:email" s

/-- One entry of the normalised profile's `emails` array; `primary` and
`verified` are `undefined` until the enrichment call sets them. -/
structure EmailEntry where
  value : Js
  primary : Js
  verified : Js

/-- The normalised profile built by `userProfile` (the nested
`name: {familyName, givenName}` object is flattened into two fields;
`_raw` and `_json` keep the body and parsed JSON). -/
structure Profile where
  provider : String
  id : Js
  username : Js
  displayName : Js
  familyName : String
  givenName : String
  emails : Option (List EmailEntry)
  photos : List Js
  raw : Body
  json : Js

/-- JS `"s".split(' ')`: split on every single space character. -/
def splitChars (cur : List Char) : List Char → List String
  | [] => [String.mk cur.reverse]
  | c :: t =>
    if c == ' ' then String.mk cur.reverse :: splitChars [] t
    else splitChars (c :: cur) t

/-- Model of `s.split(' ')` for a JS string. -/
def jsSplitSpace (s : String) : List String :=
  splitChars [] s.toList

/-- Model of `json.email && [{value: json.email}]`: an emails array is built only
when the upstream email is truthy; otherwise the field keeps the falsy
email value, modelled as `none`. -/
def mkEmails (e : Js) : Option (List EmailEntry) :=
  if e.truthy then some [⟨e, .undefined, .undefined⟩] else none

/-- Runtime exceptions funnelled into `done(e)` by the source's try/catch:
a JSON parse failure (SyntaxError, carrying the raw text) or a TypeError
from property access / calling `.split` on a non-string. -/
inductive JsErr where
  | parseErr (raw : String)
  | typeErr

/-- Profile construction from the parsed primary JSON
(src/src/index.js lines 94-111): splits `json.name` with
`split(' ', 2)`, defaults absent name parts to `''`, and builds `emails`
with `json.email && [{value: json.email}]`.  Property access on a `null`
primary value and `.split` on a truthy non-string name throw (caught by
the source's surrounding try/catch). -/
def normalize (body : Body) (j : Js) : Except JsErr Profile :=
  match j with
  | .null => .error .typeErr
  | .undefined => .error .typeErr
  | _ =>
    let nameV := jsGet j "name"
    if nameV.truthy then
      match nameV with
      | .str s =>
        let parts := (jsSplitSpace s).take 2
        .ok { provider := "github"
              id := jsGet j "id"
              username := jsGet j "login"
              displayName := nameV
              familyName := parts.getD 1 ""
              givenName := parts.getD 0 ""
              emails := mkEmails (jsGet j "email")
              photos := []
              raw := body
              json := j }
      | _ => .error .typeErr
    else
      .ok { provider := "github"
            id := jsGet j "id"
            username := jsGet j "login"
            displayName := .str ""
            familyName := ""
            givenName := ""
            emails := mkEmails (jsGet j "email")
            photos := []
            raw := body
            json := j }

/-- Errors delivered by `userProfile` through `done(error)`. -/
inductive UPError where
  | oauth (message : Js) (statusCode : Int)
  | oauthWrapped (message : String) (inner : TransportError)
  | jsErr (e : JsErr)

/-- The primary-profile part of `userProfile` (src/src/index.js lines
84-114): on transport error, try to parse `error.data` and surface
`InternalOAuthError(errorJSON.message, error.statusCode)` — reading
`.message` on parsed `null` throws into the same catch, which surfaces
`InternalOAuthError('Failed to fetch user profile', error)`; on success,
parse the body (SyntaxError on raw text) and normalise. -/
def primaryPhase (primary : TransportResult) : Except UPError Profile :=
  match primary with
  | .err e =>
    match e.data with
    | .json j =>
      match jsGetE j "message" with
      | .ok m => .error (.oauth m e.statusCode)
      | .error _ => .error (.oauthWrapped "Failed to fetch user profile" e)
    | .raw _ => .error (.oauthWrapped "Failed to fetch user profile" e)
  | .ok (.raw s) => .error (.jsErr (.parseErr s))
  | .ok (.json j) =>
    match normalize (.json j) j with
    | .ok p => .ok p
    | .error e => .error (.jsErr e)

/-- One pushed enrichment entry:
`{value: email.email, primary: email.primary, verified: email.verified}`. -/
def toEntry (r : Js) : EmailEntry :=
  ⟨jsGet r "email", jsGet r "primary", jsGet r "verified"⟩

/-- The in-place flag merge `profile.emails[0].primary = email.primary;
profile.emails[0].verified = email.verified`. -/
def setFlags (es : List EmailEntry) (p v : Js) : List EmailEntry :=
  match es with
  | [] => []
  | e :: t => ⟨e.value, p, v⟩ :: t

/-- The `forEach` loop of the enrichment handler (src/src/index.js lines
133-140): `publicEmail` is captured once (its `value` never changes, so it
is passed as `pubVal`); each record whose `email` loosely equals the public
value overwrites entry 0's flags, every other record is appended.  Reading
`email.email` on a `null`/`undefined` array element throws (uncaught in the
source, hence the `Except`). -/
def mergeEmails (pubVal : Option Js) : List EmailEntry → List Js → Except Unit (List EmailEntry)
  | es, [] => .ok es
  | es, r :: rs =>
    if r.isNullish then .error ()
    else
      match pubVal with
      | some v =>
        if jsEq v (jsGet r "email") then
          mergeEmails pubVal (setFlags es (jsGet r "primary") (jsGet r "verified")) rs
        else
          mergeEmails pubVal (es ++ [toEntry r]) rs
      | none => mergeEmails pubVal (es ++ [toEntry r]) rs

/-- Outcome of the secondary (emails) handler: a delivered profile, or an
uncaught runtime exception escaping the callback. -/
inductive SecResult where
  | ok (p : Profile)
  | crash

/-- The secondary emails call handler (src/src/index.js lines 116-145):
transport errors, unparseable bodies and falsy `json.length` degrade to the
already-built profile; otherwise `profile.emails = profile.emails || []` is
normalised and the records are merged.  `json.length` on parsed `null` and
`forEach` on a non-array with truthy length throw outside any try/catch. -/
def secondaryPhase (profile : Profile) (secondary : TransportResult) : SecResult :=
  match secondary with
  | .err _ => .ok profile
  | .ok (.raw _) => .ok profile
  | .ok (.json j) =>
    match jsLengthE j with
    | .error _ => .crash
    | .ok lenV =>
      if lenV.truthy then
        match j with
        | .arr elems =>
          let es0 := profile.emails.getD []
          match mergeEmails (es0.head?.map EmailEntry.value) es0 elems with
          | .ok es => .ok { profile with emails := some es }
          | .error _ => .crash
        | _ => .crash
      else .ok profile

/-- Overall outcome of `userProfile`: a profile via `done(null, profile)`,
an error via `done(error)`, or an uncaught exception. -/
inductive UPResult where
  | ok (p : Profile)
  | err (e : UPError)
  | crash

/-- Model of `userProfile(accessToken, done)` (src/src/index.js lines 83-148) with
the two transport responses passed explicitly: primary phase first, then —
only when the configured scope contains `'user:email'` — the secondary
enrichment phase. -/
def userProfile (cfg : Config) (primary secondary : TransportResult) : UPResult :=
  match primaryPhase primary with
  | .error e => .err e
  | .ok profile =>
    if scopeWantsEmails cfg then
      match secondaryPhase profile secondary with
      | .ok p => .ok p
      | .crash => .crash
    else .ok profile

/-- An inbound request: three optional string maps. -/
structure Request where
  body : Option (List (String × String))
  query : Option (List (String × String))
  headers : Option (List (String × String))

/-- Model of `m && m[k]` on an optional map. -/
def mapGet (m : Option (List (String × String))) (k : String) : Option String :=
  match m with
  | none => none
  | some l => assocLookup l k
where
  assocLookup : List (String × String) → String → Option String
    | [], _ => none
    | (k, v) :: t, key => if k == key then some v else assocLookup t key

/-- JS truthiness of a possibly-absent string (`undefined` and `''` are
falsy). -/
def strTruthy : Option String → Bool
  | none => false
  | some s => s != ""

/-- JS `a || b` on possibly-absent strings. -/
def jsOrS (a b : Option String) : Option String :=
  if strTruthy a then a else b

/-- Token extraction of `authenticate` (src/src/index.js line 55):
`(req.body && req.body[field]) || (req.query && req.query[field])` —
the headers map is not consulted. -/
def extractToken (req : Request) (field : String) : Option String :=
  jsOrS (mapGet req.body field) (mapGet req.query field)

/-- What the application's `verify` callback passes to its completion
callback `verified(error, user, info)`; falsy `error`/`user` are modelled
as `none`. -/
structure VerifyResult where
  error : Option Js
  user : Option Js
  info : Js

/-- The application verification callback; receives the request exactly
when `passReqToCallback` is set. -/
def VerifyFn : Type :=
  Option Request → String → Option String → Profile → VerifyResult

/-- Errors reaching `this.error`: a failed profile load or an application
error. -/
inductive AuthError where
  | load (e : UPError)
  | app (e : Js)

/-- Terminal outcome of one `authenticate` invocation, plus `crash` for an
uncaught exception that escapes without reaching any terminal signal. -/
inductive AuthOutcome where
  | success (user : Js) (info : Js)
  | fail (info : Js)
  | error (e : AuthError)
  | crash

/-- The `fail` payload for a missing access token:
`{message: 'You should provide <field>'}`. -/
def missingMsg (field : String) : Js :=
  .obj [("message", .str ("You should provide " ++ field))]

/-- The `verified` completion closure (src/src/index.js lines 63-68). -/
def verified (r : VerifyResult) : AuthOutcome :=
  match r.error with
  | some e => .error (.app e)
  | none =>
    match r.user with
    | none => .fail r.info
    | some u => .success u r.info

/-- The part of `authenticate` after a truthy access token was extracted:
load the profile (`this._loadUserProfile` delegates to `userProfile`),
map a load error to `this.error`, otherwise invoke the application callback
(with the request iff `passReqToCallback`) and dispatch via `verified`. -/
def postExtract (cfg : Config) (req : Request) (primary secondary : TransportResult)
    (verify : VerifyFn) (tok : String) (rtok : Option String) : AuthOutcome :=
  match userProfile cfg primary secondary with
  | .err e => .error (.load e)
  | .crash => .crash
  | .ok profile =>
    verified (verify (if cfg.passReqToCallback then some req else none) tok rtok profile)

/-- Model of `authenticate(req, options)` (src/src/index.js lines 54-76): extract the
access and refresh tokens from body/query, fail when the access token is
falsy, otherwise proceed to profile loading and verification. -/
def authenticate (cfg : Config) (req : Request) (primary secondary : TransportResult)
    (verify : VerifyFn) : AuthOutcome :=
  let rtok := extractToken req cfg.refreshTokenField
  match extractToken req cfg.accessTokenField with
  | none => .fail (missingMsg cfg.accessTokenField)
  | some tok =>
    if tok == "" then .fail (missingMsg cfg.accessTokenField)
    else postExtract cfg req primary secondary verify tok rtok


theorem startsWithL_self (l : List Char) : startsWithL l l = true := by
  induction l with
  | nil => rfl
  | cons a t ih => simp [startsWithL, ih]

theorem hasSubList_append_self (pre n : List Char) : hasSubList n (pre ++ n) = true := by
  induction pre with
  | nil =>
    cases n with
    | nil => rfl
    | cons c t => simp [hasSubList, startsWithL_self]
  | cons p ps ih =>
    simp [hasSubList, ih]

theorem hasSubStr_append_self (pre n : String) : hasSubStr n (pre ++ n) = true := by
  have : (pre ++ n).toList = pre.toList ++ n.toList := by
    simp [String.toList]
  simp [hasSubStr, this, hasSubList_append_self]

theorem mergeEmails_none (elems : List Js) (h : ∀ r ∈ elems, r.isNullish = false) :
    ∀ es, mergeEmails none es elems = .ok (es ++ elems.map toEntry) := by
  induction elems with
  | nil => intro es; simp [mergeEmails]
  | cons r rs ih =>
    intro es
    have hr : r.isNullish = false := h r (by simp)
    have ih' := ih (fun x hx => h x (by simp [hx]))
    simp only [mergeEmails, hr, Bool.false_eq_true, if_false]
    rw [ih' (es ++ [toEntry r])]
    simp

theorem mergeEmails_some_head (elems : List Js) (h : ∀ r ∈ elems, r.isNullish = false) :
    ∀ (e0 : EmailEntry) (rest : List EmailEntry),
      mergeEmails (some e0.value) (e0 :: rest) elems =
        .ok ((elems.foldl
                (fun e r =>
                  if jsEq e0.value (jsGet r "email") then
                    ⟨e0.value, jsGet r "primary", jsGet r "verified"⟩
                  else e) e0)
             :: rest
             ++ (elems.filter (fun r => ! jsEq e0.value (jsGet r "email"))).map toEntry) := by
  induction elems with
  | nil => intro e0 rest; simp [mergeEmails]
  | cons r rs ih =>
    intro e0 rest
    have hr : r.isNullish = false := h r (by simp)
    have ih' := ih (fun x hx => h x (by simp [hx]))
    simp only [mergeEmails, hr, Bool.false_eq_true, if_false]
    by_cases hc : jsEq e0.value (jsGet r "email") = true
    · simp only [hc, if_true, setFlags]
      rw [ih' ⟨e0.value, jsGet r "primary", jsGet r "verified"⟩ rest]
      simp [List.foldl, hc, List.filter]
    · have hc' : jsEq e0.value (jsGet r "email") = false := by
        exact Bool.not_eq_true _ ▸ (by simpa using hc)
      simp only [hc', Bool.false_eq_true, if_false]
      rw [show (e0 :: rest) ++ [toEntry r] = e0 :: (rest ++ [toEntry r]) from rfl]
      rw [ih' e0 (rest ++ [toEntry r])]
      simp [List.foldl, hc', List.filter, List.append_assoc]

/-- A secondary emails response that the handler can process without an
uncaught exception: a transport error, an unparseable body, a parsed value
with falsy `length`, or an array of non-nullish records. -/
def secondarySafe : TransportResult → Bool
  | .err _ => true
  | .ok (.raw _) => true
  | .ok (.json j) =>
    match jsLengthE j with
    | .error _ => false
    | .ok lenV =>
      if lenV.truthy then
        match j with
        | .arr elems => elems.all (fun r => ! r.isNullish)
        | _ => false
      else true

theorem mergeEmails_ok (pub : Option Js) (elems : List Js)
    (h : ∀ r ∈ elems, r.isNullish = false) :
    ∀ es, ∃ out, mergeEmails pub es elems = .ok out := by
  induction elems with
  | nil => intro es; exact ⟨es, rfl⟩
  | cons r rs ih =>
    intro es
    have hr : r.isNullish = false := h r (by simp)
    have ih' := ih (fun x hx => h x (by simp [hx]))
    simp only [mergeEmails, hr, Bool.false_eq_true, if_false]
    cases pub with
    | none => exact ih' (es ++ [toEntry r])
    | some v =>
      by_cases hc : jsEq v (jsGet r "email") = true
      · simp only [hc, if_true]
        exact ih' (setFlags es (jsGet r "primary") (jsGet r "verified"))
      · simp only [hc, if_false]
        exact ih' (es ++ [toEntry r])

theorem secondaryPhase_safe (p : Profile) (s : TransportResult)
    (h : secondarySafe s = true) : secondaryPhase p s ≠ .crash := by
  cases s with
  | err e => simp [secondaryPhase]
  | ok body =>
    cases body with
    | raw t => simp [secondaryPhase]
    | json j =>
      simp only [secondarySafe] at h
      simp only [secondaryPhase]
      cases hl : jsLengthE j with
      | error u => rw [hl] at h; simp at h
      | ok lenV =>
        rw [hl] at h
        simp only at h
        by_cases ht : lenV.truthy = true
        · simp only [ht, if_true] at h ⊢
          cases j with
          | arr elems =>
            simp only [List.all_eq_true] at h
            have hwf : ∀ r ∈ elems, r.isNullish = false := by
              intro r hr
              simpa using h r hr
            obtain ⟨out, hm⟩ :=
              mergeEmails_ok ((p.emails.getD []).head?.map EmailEntry.value) elems hwf
                (p.emails.getD [])
            simp [hm]
          | undefined => simp at h
          | null => simp at h
          | bool b => simp at h
          | num n => simp at h
          | str t => simp at h
          | obj fs => simp at h
        · have ht' : lenV.truthy = false := by simpa using ht
          simp [ht']

/-- Did the invocation end in the success terminal signal. -/
def AuthOutcome.isSuccess : AuthOutcome → Bool
  | .success _ _ => true
  | _ => false

/-- Did the invocation end in the fail terminal signal. -/
def AuthOutcome.isFail : AuthOutcome → Bool
  | .fail _ => true
  | _ => false

/-- Did the invocation end in the error terminal signal. -/
def AuthOutcome.isError : AuthOutcome → Bool
  | .error _ => true
  | _ => false

theorem authenticate_crash_means_load_crash (cfg : Config) (req : Request)
    (primary secondary : TransportResult) (verify : VerifyFn)
    (h : authenticate cfg req primary secondary verify = .crash) :
    userProfile cfg primary secondary = .crash := by
  unfold authenticate at h
  cases hx : extractToken req cfg.accessTokenField with
  | none => rw [hx] at h; simp at h
  | some tok =>
    rw [hx] at h
    by_cases he : tok == ""
    · simp [he] at h
    · simp only [he, Bool.false_eq_true, if_false, postExtract] at h
      cases hu : userProfile cfg primary secondary with
      | err e => rw [hu] at h; simp at h
      | crash => rfl
      | ok p =>
        rw [hu] at h
        simp only [verified] at h
        cases hv : (verify (if cfg.passReqToCallback then some req else none) tok
            (extractToken req cfg.refreshTokenField) p).error with
        | some e => rw [hv] at h; simp at h
        | none =>
          rw [hv] at h
          cases hw : (verify (if cfg.passReqToCallback then some req else none) tok
              (extractToken req cfg.refreshTokenField) p).user with
          | none => rw [hw] at h; simp at h
          | some u => rw [hw] at h; simp at h

def fixtureJson : Js :=
  .obj [("id", .str "1"), ("login", .str "ghaiklor"), ("name", .str "Eugene Obrezkov"),
        ("email", .str "ghaiklor@gmail.com")]

def fixtureProfile : Profile :=
  ⟨"github", .str "1", .str "ghaiklor", .str "Eugene Obrezkov", "Obrezkov", "Eugene",
   some [⟨.str "ghaiklor@gmail.com", .undefined, .undefined⟩], [], .json fixtureJson, fixtureJson⟩

def cfg0 : Config := mkConfig ⟨none, none, false, none⟩

def cfgScope : Config := mkConfig ⟨none, none, false, some "user:email"⟩

def verifyOk : VerifyFn :=
  fun _ _ _ p => ⟨none, some p.json, .obj [("info", .str "foo")]⟩

def UPResult.emails? : UPResult → Option (Option (List EmailEntry))
  | .ok p => some p.emails
  | _ => none

theorem normalize_emails (b : Body) (j : Js) (p : Profile)
    (h : normalize b j = .ok p) : p.emails = mkEmails (jsGet j "email") := by
  cases j
  case null => simp [normalize] at h
  case undefined => simp [normalize] at h
  all_goals
    simp only [normalize] at h
    split at h
    · split at h
      · injection h with h'
        rw [← h']
      · exact Except.noConfusion h
    · injection h with h'
      rw [← h']

theorem getD_take_two_zero (l : List String) : (l.take 2).getD 0 "" = l.getD 0 "" := by
  cases l with
  | nil => rfl
  | cons a t => rfl

theorem getD_take_two_one (l : List String) : (l.take 2).getD 1 "" = l.getD 1 "" := by
  cases l with
  | nil => rfl
  | cons a t =>
    cases t with
    | nil => rfl
    | cons b u => rfl

/-- C1: refuting evidence for the claimed header extraction.  A request
carrying the access token only in `req.headers` (the exact shape of the
repository's own test 'Should properly parse access_token'), with a primary
response and a verify callback that would succeed, is rejected with the
missing-token failure: `authenticate` consults only `req.body` and
`req.query` and never the headers map. -/
theorem c1_header_token_request_fails :
    authenticate cfg0
      ⟨none, none, some [("access_token", "access_token"), ("refresh_token", "refresh_token")]⟩
      (.ok (.json fixtureJson)) (.err ⟨.raw "", 0⟩) verifyOk
    = .fail (missingMsg "access_token") := rfl

/-- C2: for every request whose body, query and headers maps all lack the
configured access-token field, `authenticate` reaches the fail terminal
signal with the message `You should provide <field>`, which contains the
configured field name; and whenever a truthy access token is extracted, a
missing refresh token never causes a failure: control proceeds to profile
loading and verification with the refresh token absent. -/
theorem c2_missing_access_token_fails :
    ∀ (cfg : Config) (req : Request) (primary secondary : TransportResult) (verify : VerifyFn),
    ((mapGet req.body cfg.accessTokenField = none ∧
      mapGet req.query cfg.accessTokenField = none ∧
      mapGet req.headers cfg.accessTokenField = none) →
      authenticate cfg req primary secondary verify = .fail (missingMsg cfg.accessTokenField) ∧
      hasSubStr cfg.accessTokenField ("You should provide " ++ cfg.accessTokenField) = true)
    ∧ (∀ tok, extractToken req cfg.accessTokenField = some tok → tok ≠ "" →
        extractToken req cfg.refreshTokenField = none →
        authenticate cfg req primary secondary verify =
          postExtract cfg req primary secondary verify tok none) := by
  intro cfg req primary secondary verify
  constructor
  · rintro ⟨hb, hq, -⟩
    constructor
    · simp [authenticate, extractToken, jsOrS, hb, hq, strTruthy]
    · exact hasSubStr_append_self "You should provide " cfg.accessTokenField
  · intro tok htok hne hrf
    have hbe : (tok == "") = false := by simpa using hne
    simp [authenticate, htok, hrf, hbe]

theorem c2_witness :
    (authenticate cfg0 ⟨none, none, none⟩ (.ok (.json fixtureJson)) (.err ⟨.raw "", 0⟩) verifyOk
       = .fail (missingMsg "access_token")
     ∧ hasSubStr "access_token" "You should provide access_token" = true)
    ∧ authenticate cfg0 ⟨some [("access_token", "t")], none, none⟩
        (.ok (.json fixtureJson)) (.err ⟨.raw "", 0⟩) verifyOk
      = postExtract cfg0 ⟨some [("access_token", "t")], none, none⟩
          (.ok (.json fixtureJson)) (.err ⟨.raw "", 0⟩) verifyOk "t" none :=
  ⟨(c2_missing_access_token_fails cfg0 ⟨none, none, none⟩
      (.ok (.json fixtureJson)) (.err ⟨.raw "", 0⟩) verifyOk).1 ⟨rfl, rfl, rfl⟩,
   (c2_missing_access_token_fails cfg0 ⟨some [("access_token", "t")], none, none⟩
      (.ok (.json fixtureJson)) (.err ⟨.raw "", 0⟩) verifyOk).2 "t" rfl (by decide) rfl⟩

/-- C3: for every primary-profile body that is not valid JSON,
`userProfile` completes with the parse error and no profile (no fallback,
no partially constructed profile), and the orchestrator maps this to the
error terminal signal whenever a truthy access token was extracted. -/
theorem c3_primary_parse_error :
    ∀ (cfg : Config) (s : String) (secondary : TransportResult) (req : Request) (verify : VerifyFn),
    userProfile cfg (.ok (.raw s)) secondary = .err (.jsErr (.parseErr s)) ∧
    (∀ tok, extractToken req cfg.accessTokenField = some tok → tok ≠ "" →
      authenticate cfg req (.ok (.raw s)) secondary verify =
        .error (.load (.jsErr (.parseErr s)))) := by
  intro cfg s secondary req verify
  constructor
  · rfl
  · intro tok htok hne
    have hbe : (tok == "") = false := by simpa using hne
    simp [authenticate, htok, hbe, postExtract, userProfile, primaryPhase]

theorem c3_witness :
    userProfile cfg0 (.ok (.raw "not a JSON")) (.err ⟨.raw "", 0⟩)
      = .err (.jsErr (.parseErr "not a JSON"))
    ∧ authenticate cfg0 ⟨some [("access_token", "t")], none, none⟩
        (.ok (.raw "not a JSON")) (.err ⟨.raw "", 0⟩) verifyOk
      = .error (.load (.jsErr (.parseErr "not a JSON"))) :=
  ⟨(c3_primary_parse_error cfg0 "not a JSON" (.err ⟨.raw "", 0⟩)
      ⟨some [("access_token", "t")], none, none⟩ verifyOk).1,
   (c3_primary_parse_error cfg0 "not a JSON" (.err ⟨.raw "", 0⟩)
      ⟨some [("access_token", "t")], none, none⟩ verifyOk).2 "t" rfl (by decide)⟩

/-- C4 counterexample: a successfully parsed primary response with no
email field yields a normalized profile whose `emails` field is absent
(`none`) — not a one-entry list holding the empty string — refuting the
claim that `emails` always has at least one entry after primary
normalization. -/
theorem c4_counterexample :
    UPResult.emails?
      (userProfile cfg0 (.ok (.json (.obj [("id", .str "1"), ("login", .str "x")])))
        (.err ⟨.raw "", 0⟩)) = some none := rfl

/-- C4 (amended): for every normalized profile built from a successfully
parsed primary response, the `emails` field is the one-entry list
`[{value: email}]` when the provider's public email is present and truthy,
and is absent entirely (no list) when the upstream email field is missing
or falsy. -/
theorem c4_no_email_means_no_list :
    ∀ (b : Body) (j : Js) (p : Profile), normalize b j = .ok p →
      p.emails =
        (if (jsGet j "email").truthy then some [⟨jsGet j "email", .undefined, .undefined⟩] else none) := by
  intro b j p h
  rw [normalize_emails b j p h, mkEmails]

theorem c4_witness :
    (⟨"github", .undefined, .undefined, .str "", "", "", none, [], .json (.obj []), .obj []⟩
      : Profile).emails = none :=
  c4_no_email_means_no_list (.json (.obj [])) (.obj [])
    ⟨"github", .undefined, .undefined, .str "", "", "", none, [], .json (.obj []), .obj []⟩ rfl

/-- C5: the primary-profile JSON with id "1", login "ghaiklor", name
"Eugene Obrezkov" and email "ghaiklor@gmail.com" normalizes to exactly
provider "github", id "1", username "ghaiklor", displayName
"Eugene Obrezkov", givenName "Eugene", familyName "Obrezkov", emails
`[{value: "ghaiklor@gmail.com"}]` and empty photos. -/
theorem c5_fixture_profile :
    userProfile cfg0 (.ok (.json fixtureJson)) (.err ⟨.raw "", 0⟩) =
      .ok ⟨"github", .str "1", .str "ghaiklor", .str "Eugene Obrezkov", "Obrezkov", "Eugene",
           some [⟨.str "ghaiklor@gmail.com", .undefined, .undefined⟩], [], .json fixtureJson,
           fixtureJson⟩ := rfl

/-- C6 counterexample: for the display name "Eugene Von Obrezkov" the code
produces familyName "Von" (the second space-separated token), not
"Von Obrezkov" (the text after the first space), refuting the claim that
familyName is all the text after the first space. -/
theorem c6_counterexample :
    (normalize (.json (.obj [("name", .str "Eugene Von Obrezkov")]))
        (.obj [("name", .str "Eugene Von Obrezkov")])).map Profile.familyName = .ok "Von"
    ∧ "Von" ≠ "Von Obrezkov" := ⟨rfl, by decide⟩

/-- C6 (amended): for every parsed primary response that yields a profile,
givenName is the first space-separated segment of the display name (the
text before the first space) and familyName is the second space-separated
segment (the text between the first and second space), each defaulting to
the empty string when unavailable, including when the display name is
absent or falsy. -/
theorem c6_name_split_segments :
    ∀ (b : Body) (j : Js) (p : Profile), normalize b j = .ok p →
      ((jsGet j "name").truthy = false → p.givenName = "" ∧ p.familyName = "") ∧
      (∀ s, jsGet j "name" = .str s →
        p.givenName = (jsSplitSpace s).getD 0 "" ∧
        p.familyName = (jsSplitSpace s).getD 1 "") := by
  intro b j p h
  cases j
  case null => simp [normalize] at h
  case undefined => simp [normalize] at h
  all_goals
    simp only [normalize] at h
    split at h
    next htr =>
      split at h
      next s0 heq =>
        injection h with h'
        constructor
        · intro hf
          try rw [heq] at hf
          try rw [heq] at htr
          exact Bool.noConfusion (htr.symm.trans hf)
        · intro s hs
          rw [heq] at hs
          injection hs with hss
          rw [← h', ← hss]
          exact ⟨(getD_take_two_zero _).symm ▸ rfl, (getD_take_two_one _).symm ▸ rfl⟩
      next hnostr =>
        exact Except.noConfusion h
    next htr =>
      injection h with h'
      constructor
      · intro _
        rw [← h']
        exact ⟨rfl, rfl⟩
      · intro s hs
        rw [hs] at htr
        have hse : s = "" := by
          by_contra hne
          exact htr (by simp [Js.truthy, hne])
        rw [← h', hse]
        exact ⟨rfl, rfl⟩

theorem c6_witness :
    fixtureProfile.givenName = (jsSplitSpace "Eugene Obrezkov").getD 0 "" ∧
    fixtureProfile.familyName = (jsSplitSpace "Eugene Obrezkov").getD 1 "" :=
  (c6_name_split_segments (.json fixtureJson) fixtureJson fixtureProfile rfl).2
    "Eugene Obrezkov" rfl

/-- C7: when the configured scope contains the private-email marker and
the primary phase produced a profile, a secondary emails call that fails —
transport error, unparseable body, or an empty result list — leaves
`userProfile` completing successfully with the primary-built profile
structurally unchanged and no error. -/
theorem c7_secondary_failure_degrades :
    ∀ (cfg : Config) (primary secondary : TransportResult) (p : Profile),
      scopeWantsEmails cfg = true →
      primaryPhase primary = .ok p →
      ((∃ e, secondary = .err e) ∨ (∃ s, secondary = .ok (.raw s)) ∨
        secondary = .ok (.json (.arr []))) →
      userProfile cfg primary secondary = .ok p := by
  intro cfg primary secondary p hs hp hsec
  unfold userProfile
  rw [hp]
  simp only [hs, if_true]
  rcases hsec with ⟨e, rfl⟩ | ⟨s, rfl⟩ | rfl
  · rfl
  · rfl
  · rfl

theorem c7_witness :
    userProfile cfgScope (.ok (.json (.obj []))) (.err ⟨.raw "", 404⟩) =
      .ok ⟨"github", .undefined, .undefined, .str "", "", "", none, [], .json (.obj []), .obj []⟩ :=
  c7_secondary_failure_degrades cfgScope (.ok (.json (.obj []))) (.err ⟨.raw "", 404⟩)
    ⟨"github", .undefined, .undefined, .str "", "", "", none, [], .json (.obj []), .obj []⟩
    rfl rfl (Or.inl ⟨⟨.raw "", 404⟩, rfl⟩)

/-- C8: merging a non-empty secondary email record list: each record whose
address loosely equals the existing primary (head) entry's value overwrites
that entry's primary/verified flags in place — no duplicate entry is added
and later matching records win — while every non-matching record is
appended at the end as `{value, primary, verified}` in response order;
pre-existing entries keep their relative order (the tail is untouched).
With no pre-existing entries, every record is appended in order. -/
theorem c8_merge_structure :
    ∀ elems : List Js, (∀ r ∈ elems, r.isNullish = false) →
      (∀ (e0 : EmailEntry) (rest : List EmailEntry),
        mergeEmails (some e0.value) (e0 :: rest) elems =
          .ok ((elems.foldl
                  (fun e r =>
                    if jsEq e0.value (jsGet r "email") then
                      ⟨e0.value, jsGet r "primary", jsGet r "verified"⟩
                    else e) e0)
               :: rest
               ++ (elems.filter (fun r => ! jsEq e0.value (jsGet r "email"))).map toEntry))
      ∧ (∀ es, mergeEmails none es elems = .ok (es ++ elems.map toEntry)) :=
  fun elems h => ⟨mergeEmails_some_head elems h, mergeEmails_none elems h⟩

theorem c8_witness :
    mergeEmails (some (Js.str "ghaiklor@gmail.com"))
      [⟨.str "ghaiklor@gmail.com", .undefined, .undefined⟩]
      [.obj [("email", .str "ghaiklor@gmail.com"), ("primary", .bool true),
             ("verified", .bool true)]] =
      .ok [⟨.str "ghaiklor@gmail.com", .bool true, .bool true⟩] :=
  (c8_merge_structure
      [.obj [("email", .str "ghaiklor@gmail.com"), ("primary", .bool true),
             ("verified", .bool true)]]
      (by intro r hr; simp at hr; subst hr; rfl)).1
    ⟨.str "ghaiklor@gmail.com", .undefined, .undefined⟩ []

/-- C9 counterexample: a primary transport error whose embedded data
parses as JSON `null` is surfaced as the generic
"Failed to fetch user profile" error wrapping the original transport error
— not as a classified upstream error — because reading `.message` on the
parsed `null` throws into the same catch block. -/
theorem c9_counterexample :
    userProfile cfg0 (.err ⟨.json .null, 500⟩) (.err ⟨.raw "", 0⟩) =
      .err (.oauthWrapped "Failed to fetch user profile" ⟨.json .null, 500⟩) := rfl

/-- C9 (amended): for every transport error on the primary profile fetch,
if the embedded data parses as JSON other than null the surfaced error is
the classified upstream error carrying that JSON's `message` property and
the transport status code; if the data does not parse — or parses to null,
whose `message` access throws — the surfaced error is the generic
"Failed to fetch user profile" error wrapping the original transport
error.  In all cases no profile is produced. -/
theorem c9_transport_error_classification :
    ∀ (cfg : Config) (e : TransportError) (secondary : TransportResult),
      userProfile cfg (.err e) secondary =
        .err (match e.data with
          | .raw _ => .oauthWrapped "Failed to fetch user profile" e
          | .json .null => .oauthWrapped "Failed to fetch user profile" e
          | .json .undefined => .oauthWrapped "Failed to fetch user profile" e
          | .json j => .oauth (jsGet j "message") e.statusCode) := by
  intro cfg e secondary
  obtain ⟨d, c⟩ := e
  cases d with
  | raw s => rfl
  | json j => cases j <;> rfl

/-- C10 counterexample: with scope requesting private emails, a token
present and a good primary response, a secondary emails body that parses
to JSON `null` makes the handler throw an uncaught TypeError at
`json.length` (outside any try/catch), so the invocation escapes without
reaching any of the three terminal signals. -/
theorem c10_counterexample :
    authenticate cfgScope ⟨some [("access_token", "t")], none, none⟩
      (.ok (.json fixtureJson)) (.ok (.json .null)) verifyOk = .crash := rfl

/-- C10 (amended): for every invocation whose secondary emails response
(when consulted) can be processed without an uncaught exception — a
transport error, an unparseable body, a parsed value with falsy length, or
an array of non-nullish records — `authenticate` reaches exactly one of
the three terminal signals success, fail, error. -/
theorem c10_exactly_one_signal :
    ∀ (cfg : Config) (req : Request) (primary secondary : TransportResult) (verify : VerifyFn),
      secondarySafe secondary = true →
      ((authenticate cfg req primary secondary verify).isSuccess.toNat +
       (authenticate cfg req primary secondary verify).isFail.toNat +
       (authenticate cfg req primary secondary verify).isError.toNat) = 1 := by
  intro cfg req primary secondary verify h
  have hnc : authenticate cfg req primary secondary verify ≠ .crash := by
    intro hc
    have hu := authenticate_crash_means_load_crash cfg req primary secondary verify hc
    unfold userProfile at hu
    cases hp : primaryPhase primary with
    | error e => rw [hp] at hu; simp at hu
    | ok p =>
      rw [hp] at hu
      by_cases hs : scopeWantsEmails cfg = true
      · simp only [hs, if_true] at hu
        cases hsp : secondaryPhase p secondary with
        | ok q => rw [hsp] at hu; simp at hu
        | crash => exact secondaryPhase_safe p secondary h hsp
      · have hs' : scopeWantsEmails cfg = false := by simpa using hs
        rw [hs'] at hu
        simp at hu
  cases ha : authenticate cfg req primary secondary verify with
  | success u i => rfl
  | fail i => rfl
  | error e => rfl
  | crash => exact absurd ha hnc

theorem c10_witness :
    ((authenticate cfg0 ⟨none, none, none⟩ (.ok (.json fixtureJson)) (.err ⟨.raw "", 0⟩)
        verifyOk).isSuccess.toNat +
     (authenticate cfg0 ⟨none, none, none⟩ (.ok (.json fixtureJson)) (.err ⟨.raw "", 0⟩)
        verifyOk).isFail.toNat +
     (authenticate cfg0 ⟨none, none, none⟩ (.ok (.json fixtureJson)) (.err ⟨.raw "", 0⟩)
        verifyOk).isError.toNat) = 1 :=
  c10_exactly_one_signal cfg0 ⟨none, none, none⟩ (.ok (.json fixtureJson))
    (.err ⟨.raw "", 0⟩) verifyOk rfl

end GHT
